import Mathlib

/-!
# Inventory translation and the KEDA pause gate

A shallow embedding of `cmd/manifest/init-guesty-v1.go` (the translation of a
platform-inventory document into the `dev` section of an okteto manifest) and of
`pkg/keda/keda.go` (pausing and unpausing a KEDA scaled object), followed by the
properties proved about them.

Conventions of the embedding:

* a Go struct is a Lean structure with the same field names; a field that a composite
  literal leaves out holds Go's zero value (`""`, `false`, `nil`);
* a Go pointer to a struct is an `Option` (`nil` is `none`);
* a Go `map[string]T` is an association list that is only touched through `set`,
  `get` and `keys`; the order of the list carries no meaning;
* calls that leave the two source files (the file system, `encoding/json`, the cluster
  client, the logger) are fields of an environment structure, and what a run does to the
  outside world is the list of events it returns.
-/

namespace Okteto

/-- Go's `error` values, kept as their message. -/
abbrev Error := String

/-! ## The types of `pkg/model` that the sources build -/

structure PersistentVolumeInfo where
  Enabled : Bool
deriving DecidableEq, Repr

structure Lifecycle where
  PostStart : Bool
  PostStop : Bool
deriving DecidableEq, Repr

structure Command where
  Values : List String
deriving DecidableEq, Repr

structure SyncFolder where
  LocalPath : String
  RemotePath : String
deriving DecidableEq, Repr

structure Sync where
  Folders : List SyncFolder
deriving DecidableEq, Repr

/-- The type `env.Var`. -/
structure Var where
  Name : String
  Value : String
deriving DecidableEq, Repr

structure Forward where
  Local : Nat
  Remote : Nat
deriving DecidableEq, Repr

/-- A `resource.Quantity`, kept as the text handed to `resource.MustParse`. -/
structure Quantity where
  text : String
deriving DecidableEq, Repr

/-- The call `resource.MustParse`. -/
def MustParse (s : String) : Quantity := ⟨s⟩

structure ResourceRequirements where
  Limits : List (String × Quantity)
deriving DecidableEq, Repr

structure Capabilities where
  Add : List String
deriving DecidableEq, Repr

structure SecurityContext where
  Capabilities : Option Capabilities
deriving DecidableEq, Repr

structure Secret where
  LocalPath : String
  RemotePath : String
  Mode : Nat
deriving DecidableEq, Repr

/-- The fields of `model.Dev` that the two source files write or read. `Name` and
`Namespace` are the ones `PauseKeda` reads; the others are the ones the composite literal
of `generateGuestyDev` sets. -/
structure Dev where
  Name : String
  Namespace : String
  Container : String
  Workdir : String
  ImagePullPolicy : String
  BootstrapCommand : String
  PersistentVolumeInfo : Option PersistentVolumeInfo
  Lifecycle : Option Lifecycle
  Keda : Bool
  Command : Command
  Sync : Sync
  Environment : List Var
  Forward : List Forward
  Resources : ResourceRequirements
  SecurityContext : Option SecurityContext
  NodeSelector : List (String × String)
  Secrets : List Secret
deriving DecidableEq, Repr

/-- The map `model.ManifestDevs`, from a name to its `Dev`. -/
abbrev ManifestDevs := List (String × Dev)

/-- The assignment `devs[k] = v`: the entry under `k` is replaced, or added. -/
def ManifestDevs.set (devs : ManifestDevs) (k : String) (v : Dev) : ManifestDevs :=
  (k, v) :: devs.filter (fun e => e.1 != k)

/-- The read `devs[k]`, with `none` for a key that is not in the map. -/
def ManifestDevs.get (devs : ManifestDevs) (k : String) : Option Dev :=
  devs.lookup k

/-- The keys of the map. -/
def ManifestDevs.keys (devs : ManifestDevs) : List String :=
  devs.map Prod.fst

/-! ## `cmd/manifest/init-guesty-v1.go` -/

structure piWorkload where
  Identity : String
deriving DecidableEq, Repr

structure piManifest where
  Services : List piWorkload
  Workers : List piWorkload
  KConsumers : List piWorkload
  Schedulers : List piWorkload
deriving DecidableEq, Repr

def generateGuestyDev (devName : String) (workloadType : String) : Dev :=
  { Name := ""
    Namespace := ""
    Container := devName
    Workdir := "/appdev"
    ImagePullPolicy := "IfNotPresent"
    BootstrapCommand := "apt update; apt -y --no-install-recommends install python3 procps; ln -sf /app/node_modules ./node_modules; mkdir -p dist"
    PersistentVolumeInfo := some { Enabled := false }
    Lifecycle := some { PostStart := true, PostStop := true }
    Keda := true
    Command := { Values := ["bash"] }
    Sync := { Folders := [{ LocalPath := ".", RemotePath := "/appdev" }] }
    Environment := [{ Name := "DEBUG_PORT", Value := "9229" }]
    Forward := [{ Local := 9229, Remote := 9229 }, { Local := 3000, Remote := 3000 }]
    Resources := { Limits := [("cpu", MustParse "3"), ("memory", MustParse "4Gi")] }
    SecurityContext := some { Capabilities := some { Add := ["fowner", "chown", "setuid", "setgid"] } }
    NodeSelector := [("WorkloadType", workloadType)]
    Secrets := [{ LocalPath := "$HOME/.npmrc", RemotePath := "/root/.npmrc", Mode := 644 }] }

/-- One of the four loops of `RunGuestyInitV1`: for `i` from `0` while `i < len(ws)`,
`devs[ws[i].Identity] = generateGuestyDev(ws[i].Identity, workloadType)`. The second half
of the loop condition, `len(ws) != 0`, holds whenever the first does. -/
def translateClass (ws : List piWorkload) (workloadType : String) (devs : ManifestDevs) :
    ManifestDevs :=
  ws.foldl (fun acc w => acc.set w.Identity (generateGuestyDev w.Identity workloadType)) devs

/-- The translation loops of `RunGuestyInitV1` (lines 70 to 93): the map starts empty and
the four loops run in the order services, workers, kConsumers, schedulers. -/
def translationLoops (pi : piManifest) : ManifestDevs :=
  let devs : ManifestDevs := []
  let devs := translateClass pi.Services "service" devs
  let devs := translateClass pi.Workers "worker" devs
  let devs := translateClass pi.KConsumers "kconsumer" devs
  translateClass pi.Schedulers "scheduler" devs

/-- The type `InitOpts`, with the fields `RunGuestyInitV1` reads. -/
structure InitOpts where
  Workdir : String
  DevPath : String
  ShowCTA : Bool
deriving DecidableEq, Repr

/-- The deploy section of a manifest; `RunGuestyInitV1` only sets it to `nil`. -/
structure DeployInfo where
  Commands : List String
deriving DecidableEq, Repr

/-- The fields of `model.Manifest` that `RunGuestyInitV1` assigns. -/
structure Manifest where
  Deploy : Option DeployInfo
  Dev : ManifestDevs
deriving DecidableEq, Repr

/-- What `RunGuestyInitV1` calls outside its own file. Each field is the result the call
gives when the run reaches it. -/
structure InitEnv where
  /-- The function `filepath.Base`. -/
  Base : String → String
  /-- The function `os.ReadFile`. -/
  ReadFile : String → Except Error String
  /-- The function `json.Unmarshal(data, &v)`: the value `v` holds after the call, and the
  error the call returns (`none` for `nil`). -/
  Unmarshal : String → piManifest → piManifest × Option Error
  /-- The function `model.NewManifest`. -/
  NewManifest : Manifest
  /-- The method `manifest.WriteToFile`. -/
  WriteToFile : Manifest → String → Option Error
  /-- The composition `filepath.Abs(filepath.Dir(p))`. -/
  AbsDir : String → Except Error String
  /-- The function `filepath.Join`. -/
  Join : String → String → String
  /-- The package constant `stignoreFile`. -/
  stignoreFile : String
  /-- The function `filesystem.FileExists`. -/
  FileExists : String → Bool
  /-- The function `linguist.GetSTIgnore`. -/
  GetSTIgnore : String → String
  /-- The function `os.WriteFile`. -/
  WriteFile : String → String → Nat → Option Error

/-- What a run of `RunGuestyInitV1` does that is visible outside it: the lines it logs and
the files it writes. -/
inductive InitEvent where
  | Error (err : Error)
  | Success (msg : String)
  | Infof (msg : String)
  | Information (msg : String)
  | WriteToFile (manifest : Manifest) (path : String)
  | WriteFile (path : String) (content : String) (perm : Nat)
deriving DecidableEq, Repr

/-- The result of a run of `RunGuestyInitV1`: its events in order and the error it returns
(`none` for `nil`). -/
structure InitResult where
  events : List InitEvent
  err : Option Error
deriving DecidableEq, Repr

/-- The path of the inventory document of an entity. -/
def inventoryPath (entityName : String) : String :=
  "../platform-inventory/dimensions/guesty/entity/" ++ entityName ++ ":manifest.json"

/-- The tail of `RunGuestyInitV1` after the manifest is written (lines 103 to 122). -/
def finishGuestyInit (env : InitEnv) (opts : InitOpts) (events : List InitEvent) : InitResult :=
  let events := events ++
    [InitEvent.Success ("Okteto manifest (" ++ opts.DevPath ++ ") configured successfully")]
  match env.AbsDir opts.DevPath with
  | .error err => ⟨events, some err⟩
  | .ok devDir =>
    let stignore := env.Join devDir env.stignoreFile
    let events :=
      if !env.FileExists stignore then
        let c := env.GetSTIgnore "node"
        match env.WriteFile stignore c 0o600 with
        | some err =>
          events ++ [InitEvent.WriteFile stignore c 0o600,
            InitEvent.Infof ("failed to write stignore file: " ++ err)]
        | none => events ++ [InitEvent.WriteFile stignore c 0o600]
      else events
    let events :=
      if opts.ShowCTA then
        events ++ [InitEvent.Information "Run 'okteto up' to activate your development container"]
      else events
    ⟨events, none⟩

/-- The function `RunGuestyInitV1`. The error of `json.Unmarshal` on line 65 is not bound
to anything in the source, so the run goes on with whatever the call left in `piManifest`. -/
def RunGuestyInitV1 (env : InitEnv) (opts : InitOpts) : InitResult :=
  let entityName := env.Base opts.Workdir
  match env.ReadFile (inventoryPath entityName) with
  | .error err => ⟨[InitEvent.Error err], some err⟩
  | .ok piManifestByte =>
    let events := [InitEvent.Success ("Opened " ++ inventoryPath entityName)]
    let piManifest : piManifest := ⟨[], [], [], []⟩
    let piManifest := (env.Unmarshal piManifestByte piManifest).1
    let manifest := env.NewManifest
    let manifest := { manifest with Deploy := none }
    let devs := translationLoops piManifest
    let manifest := { manifest with Dev := devs }
    match env.WriteToFile manifest opts.DevPath with
    | some err => ⟨events ++ [InitEvent.WriteToFile manifest opts.DevPath], some err⟩
    | none => finishGuestyInit env opts (events ++ [InitEvent.WriteToFile manifest opts.DevPath])

/-- The manifests a run hands to `WriteToFile`, in order. -/
def InitResult.written (r : InitResult) : List Manifest :=
  r.events.filterMap (fun e => match e with
    | InitEvent.WriteToFile m _ => some m
    | _ => none)

/-! ## JSON documents and JSON merge patch

`PauseKeda` and `UnpauseKeda` send a text and ask the cluster to apply it as a JSON merge
patch (`types.MergePatchType`). What the text denotes and what applying it does are fixed
by RFC 8259 and RFC 7396; they are written out here so that the two payloads of the source
can be read and applied. -/

/-- A JSON value. An object keeps its members as a list of name and value. -/
inductive Json where
  | null
  | bool (b : Bool)
  | num (n : Int)
  | str (s : String)
  | arr (items : List Json)
  | obj (members : List (String × Json))

namespace Json

/-- The members of an object; a value that is not an object has none. -/
def membersOf : Json → List (String × Json)
  | obj ms => ms
  | _ => []

/-- The member of an object under a name. -/
def get (j : Json) (k : String) : Option Json :=
  (membersOf j).lookup k

/-- The value reached by following a list of member names. -/
def getPath (j : Json) : List String → Option Json
  | [] => some j
  | k :: ks =>
    match j.get k with
    | some v => getPath v ks
    | none => none

/-- The members without the one named `k`. -/
def dropMember (ms : List (String × Json)) (k : String) : List (String × Json) :=
  ms.filter (fun e => e.1 != k)

mutual
/-- The function `MergePatch(Target, Patch)` of RFC 7396: a patch that is not an object
replaces the target; a patch that is an object is applied member by member to the target
(to the empty object if the target is not an object). -/
def mergePatch (target : Json) : Json → Json
  | obj patch => obj (mergeMembers (membersOf target) patch)
  | patch => patch
/-- The loop of `MergePatch` over the members of the patch: a `null` removes the member of
that name from the target, any other value is merged into the member of that name. -/
def mergeMembers (target : List (String × Json)) : List (String × Json) → List (String × Json)
  | [] => target
  | (k, v) :: rest =>
    match v with
    | null => mergeMembers (dropMember target k) rest
    | v => mergeMembers ((k, mergePatch ((target.lookup k).getD null) v) :: dropMember target k) rest
end

/-- Skips JSON white space. -/
def skipWs : List Char → List Char
  | [] => []
  | c :: cs => if c = ' ' ∨ c = '\n' ∨ c = '\t' ∨ c = '\r' then skipWs cs else c :: cs

/-- Reads a string after its opening quote, up to the closing quote. A string with an
escape is not read. -/
def readString (acc : List Char) : List Char → Option (String × List Char)
  | [] => none
  | c :: cs =>
    if c = '\x22' then some (String.mk acc.reverse, cs)
    else if c = '\x5c' then none
    else readString (c :: acc) cs

mutual
/-- Reads one JSON value. -/
def readValue : Nat → List Char → Option (Json × List Char)
  | 0, _ => none
  | fuel + 1, cs =>
    match skipWs cs with
    | 'n' :: 'u' :: 'l' :: 'l' :: rest => some (null, rest)
    | 't' :: 'r' :: 'u' :: 'e' :: rest => some (bool true, rest)
    | 'f' :: 'a' :: 'l' :: 's' :: 'e' :: rest => some (bool false, rest)
    | '\x22' :: rest =>
      match readString [] rest with
      | some (s, rest) => some (str s, rest)
      | none => none
    | '\x7b' :: rest =>
      match skipWs rest with
      | '\x7d' :: rest => some (obj [], rest)
      | _ => readMembers fuel [] rest
    | _ => none
/-- Reads the members of an object after its opening brace, up to the closing brace. -/
def readMembers : Nat → List (String × Json) → List Char → Option (Json × List Char)
  | 0, _, _ => none
  | fuel + 1, acc, cs =>
    match skipWs cs with
    | '\x22' :: rest =>
      match readString [] rest with
      | some (k, rest) =>
        match skipWs rest with
        | ':' :: rest =>
          match readValue fuel rest with
          | some (v, rest) =>
            match skipWs rest with
            | ',' :: rest => readMembers fuel ((k, v) :: acc) rest
            | '\x7d' :: rest => some (obj ((k, v) :: acc).reverse, rest)
            | _ => none
          | none => none
        | _ => none
      | none => none
    | _ => none
end

/-- Reads a JSON text made of objects, strings without escapes, `null`, `true` and `false`
(the part of the JSON grammar that the payloads of `pkg/keda` use). Any other text, and
any text with something after the value, gives `none`. The fuel is the length of the text
plus one, which is more than the number of values and members a text can hold. -/
def parse (s : String) : Option Json :=
  match readValue (s.length + 1) s.data with
  | some (v, rest) => if skipWs rest = [] then some v else none
  | none => none

/-- The document with the single leaf `leaf` at the end of a path of member names. -/
def nest : List String → Json → Json
  | [], leaf => leaf
  | k :: ks, leaf => obj [(k, nest ks leaf)]

end Json

/-! ## `pkg/keda/keda.go` -/

/-- The type `types.PatchType`. -/
inductive PatchType where
  | JSONPatchType
  | MergePatchType
  | StrategicMergePatchType
  | ApplyPatchType
deriving DecidableEq, Repr

/-- One call `ScaledObjects(namespace).Patch(ctx, name, pt, data, metav1.PatchOptions{})`
of the KEDA client. The context and the empty options are the same in every call. -/
structure PatchRequest where
  Namespace : String
  Name : String
  pt : PatchType
  data : String
deriving DecidableEq, Repr

/-- The value `*rest.Config`. -/
structure RestConfig where
  host : String
deriving DecidableEq, Repr

/-- The KEDA clientset built by `NewForConfig`. -/
structure Clientset where
  config : RestConfig
deriving DecidableEq, Repr

/-- The scaled objects of a cluster: the JSON of each, under its namespace and name. -/
abbrev ScaledObjects := List ((String × String) × Json)

/-- What `PauseKeda` and `UnpauseKeda` call outside their file, apart from the logger. -/
structure KedaEnv where
  /-- The second and third result of `okteto.GetK8sClient()`. -/
  GetK8sClient : Except Error RestConfig
  /-- The function `apiextensionsclientset.NewForConfig`. -/
  NewForConfig : RestConfig → Except Error Clientset
  /-- The cluster's answer to a patch request: the scaled objects after it, or the error
  the call returns, in which case the scaled objects are as they were. -/
  Patch : Clientset → ScaledObjects → PatchRequest → Except Error ScaledObjects

/-- What a run of `PauseKeda` or `UnpauseKeda` does that is visible outside it. -/
inductive KedaEvent where
  | Fail (msg : String)
  | Success (msg : String)
  | Patch (req : PatchRequest)
deriving DecidableEq, Repr

/-- The result of a run: its events in order and the scaled objects of the cluster after
it. -/
structure KedaResult where
  events : List KedaEvent
  objects : ScaledObjects

/-- Modelled from the spec: `oktetoLog.Fail` is defined in `pkg/log`, which is not among
the sources. The spec describes it as the fatal-error channel of the surrounding system,
a process-terminating log call (§4.2 "reports the failure through the surrounding system's
fatal-error channel", §9 "process-terminating log calls", "immediate process termination"):
the message is reported and the run ends at the call, with the cluster as it is. -/
def oktetoLog.Fail (msg : String) (events : List KedaEvent) (objects : ScaledObjects) :
    KedaResult :=
  ⟨events ++ [KedaEvent.Fail msg], objects⟩

/-- The payload of `UnpauseKeda` (line 30). -/
def unpausePayload : String :=
  "\x7b\"metadata\": \x7b\"annotations\": \x7b\"autoscaling.keda.sh/paused-replicas\": null\x7d\x7d\x7d"

/-- The payload of `PauseKeda` (line 54). -/
def pausePayload : String :=
  "\x7b\"metadata\": \x7b\"annotations\": \x7b\"autoscaling.keda.sh/paused-replicas\": \"0\"\x7d\x7d\x7d"

/-- The object meta data of an `apps.App`, as far as `UnpauseKeda` reads it. -/
structure ObjectMeta where
  Name : String
  Namespace : String
deriving DecidableEq, Repr

/-- The interface `apps.App`, as far as `UnpauseKeda` uses it. -/
structure App where
  ObjectMeta : ObjectMeta
deriving DecidableEq, Repr

def UnpauseKeda (env : KedaEnv) (objects : ScaledObjects) (app : App) : KedaResult :=
  let workloadName := app.ObjectMeta.Name
  let namespaceName := app.ObjectMeta.Namespace
  match env.GetK8sClient with
  | .error err =>
    oktetoLog.Fail ("Keda unpause client failed for " ++ workloadName ++ ", err: " ++ err) [] objects
  | .ok restConfig =>
    match env.NewForConfig restConfig with
    | .error err =>
      oktetoLog.Fail ("Keda unpause client failed for " ++ workloadName ++ ", err: " ++ err) [] objects
    | .ok apiextensionsClient =>
      let payload := unpausePayload
      let req : PatchRequest := ⟨namespaceName, workloadName, PatchType.MergePatchType, payload⟩
      match env.Patch apiextensionsClient objects req with
      | .error err =>
        oktetoLog.Fail ("Keda unpause failed for " ++ workloadName ++ ", err: " ++ err)
          [KedaEvent.Patch req] objects
      | .ok objects =>
        ⟨[KedaEvent.Patch req, KedaEvent.Success ("Keda unpaused " ++ workloadName)], objects⟩

def PauseKeda (env : KedaEnv) (objects : ScaledObjects) (dev : Dev) : KedaResult :=
  let workloadName := dev.Name
  let namespaceName := dev.Namespace
  match env.GetK8sClient with
  | .error err =>
    oktetoLog.Fail ("Keda pause client failed for " ++ workloadName ++ ", err: " ++ err) [] objects
  | .ok restConfig =>
    match env.NewForConfig restConfig with
    | .error err =>
      oktetoLog.Fail ("Keda pause client failed for " ++ workloadName ++ ", err: " ++ err) [] objects
    | .ok apiextensionsClient =>
      let payload := pausePayload
      let req : PatchRequest := ⟨namespaceName, workloadName, PatchType.MergePatchType, payload⟩
      match env.Patch apiextensionsClient objects req with
      | .error err =>
        oktetoLog.Fail ("Keda pause failed for " ++ workloadName ++ ", err: " ++ err)
          [KedaEvent.Patch req] objects
      | .ok objects =>
        ⟨[KedaEvent.Patch req, KedaEvent.Success ("Keda paused " ++ workloadName)], objects⟩

/-- The patch requests of a run, in order. -/
def KedaResult.requests (r : KedaResult) : List PatchRequest :=
  r.events.filterMap (fun e => match e with
    | KedaEvent.Patch req => some req
    | _ => none)

/-- Whether a run reported a failure. -/
def KedaResult.failed (r : KedaResult) : Bool :=
  r.events.any (fun e => match e with
    | KedaEvent.Fail _ => true
    | _ => false)

/-- Whether a run reported success. -/
def KedaResult.succeeded (r : KedaResult) : Bool :=
  r.events.any (fun e => match e with
    | KedaEvent.Success _ => true
    | _ => false)

/-- The name of the annotation that the two payloads address. -/
def pausedReplicas : String := "autoscaling.keda.sh/paused-replicas"

/-- The place of that annotation in a resource. -/
def pausedReplicasPath : List String := ["metadata", "annotations", pausedReplicas]

/-- A cluster that applies merge patches as RFC 7396 says: a request for a scaled object
that exists, with a payload that reads as JSON, replaces the object by the patched one;
any other request is refused. -/
def mergePatchCluster (_ : Clientset) (objects : ScaledObjects) (req : PatchRequest) :
    Except Error ScaledObjects :=
  match req.pt with
  | PatchType.MergePatchType =>
    match Json.parse req.data, objects.lookup (req.Namespace, req.Name) with
    | some doc, some target =>
      .ok (((req.Namespace, req.Name), Json.mergePatch target doc) ::
        objects.filter (fun e => e.1 != (req.Namespace, req.Name)))
    | none, _ => .error "the payload is not a JSON document"
    | _, none => .error "scaledobject not found"
  | _ => .error "unsupported patch type"

/-- The annotations of a resource, a map from a name to a string. -/
abbrev Annotations := List (String × String)

/-- The annotations as the JSON object they are in a resource. -/
def Annotations.toJson (a : Annotations) : Json :=
  Json.obj (a.map (fun e => (e.1, Json.str e.2)))

/-- The effect of a payload on the annotations of a resource: the part of the document
under `metadata.annotations`, applied to the annotations as a JSON merge patch. A payload
that is not a JSON document, or has nothing under `metadata.annotations`, changes
nothing. -/
def patchAnnotations (payload : String) (annotations : Json) : Json :=
  match Json.parse payload with
  | some doc =>
    match doc.getPath ["metadata", "annotations"] with
    | some patch => Json.mergePatch annotations patch
    | none => annotations
  | none => annotations

/-! ## Reference notions for the translation -/

/-- The entries of an inventory document in input order, each with the label of its class:
all services, then all workers, then all kConsumers, then all schedulers. -/
def inputOrder (pi : piManifest) : List (String × String) :=
  pi.Services.map (fun w => (w.Identity, "service")) ++
  pi.Workers.map (fun w => (w.Identity, "worker")) ++
  pi.KConsumers.map (fun w => (w.Identity, "kconsumer")) ++
  pi.Schedulers.map (fun w => (w.Identity, "scheduler"))

/-- The identities of an inventory document, in input order, with repetitions. -/
def identities (pi : piManifest) : List String :=
  (inputOrder pi).map Prod.fst

/-- Translation of a list of labelled entries, one assignment per entry. -/
def translateEntries (es : List (String × String)) (devs : ManifestDevs) : ManifestDevs :=
  es.foldl (fun acc e => acc.set e.1 (generateGuestyDev e.1 e.2)) devs

/-- The map holds, under `identity`, a specification whose container name is `identity`
and whose placement selector `NodeSelector["WorkloadType"]` is `label`. -/
def HoldsAs (devs : ManifestDevs) (identity label : String) : Prop :=
  ∃ dev, devs.get identity = some dev ∧ dev.Container = identity ∧
    dev.NodeSelector.lookup "WorkloadType" = some label

/-! ## Concrete inputs -/

/-- The inventory document with the service `api` and the worker `mailer`. -/
def apiMailer : piManifest :=
  ⟨[⟨"api"⟩], [⟨"mailer"⟩], [], []⟩

/-- The inventory document without any entry. -/
def emptyInventory : piManifest :=
  ⟨[], [], [], []⟩

/-- The inventory document whose one entry is a service with the empty identity. -/
def namelessService : piManifest :=
  ⟨[⟨""⟩], [], [], []⟩

/-- The text of the inventory document `namelessService`. -/
def namelessInventory : String :=
  "\x7b\"services\":[\x7b\"identity\":\"\"\x7d]\x7d"

/-- An environment for `RunGuestyInitV1` in which the inventory file holds `content`,
`json.Unmarshal` leaves `decoded` in the document and returns `unmarshalErr`, and every
other call succeeds. -/
def quietEnv (content : String) (decoded : piManifest) (unmarshalErr : Option Error) :
    InitEnv :=
  { Base := fun p => p
    ReadFile := fun _ => .ok content
    Unmarshal := fun _ _ => (decoded, unmarshalErr)
    NewManifest := ⟨none, []⟩
    WriteToFile := fun _ _ => none
    AbsDir := fun p => .ok p
    Join := fun a b => a ++ "/" ++ b
    stignoreFile := ".stignore"
    FileExists := fun _ => true
    GetSTIgnore := fun _ => ""
    WriteFile := fun _ _ _ => none }

/-- Options of a run in the entity folder `booking`. -/
def bookingOpts : InitOpts :=
  ⟨"booking", "okteto.yml", false⟩

/-- An inventory file whose `workers` member is a number. `json.Unmarshal` decodes the
`services` member, skips `workers`, and returns an `UnmarshalTypeError`. -/
def mistypedInventory : String :=
  "\x7b\"services\":[\x7b\"identity\":\"api\"\x7d],\"workers\":5\x7d"

/-- The environment of a run over `mistypedInventory`. -/
def mistypedEnv : InitEnv :=
  quietEnv mistypedInventory ⟨[⟨"api"⟩], [], [], []⟩
    (some "json: cannot unmarshal number into Go struct field piManifest.workers of type []manifest.piWorkload")

/-- The client a run obtains: `GetK8sClient` followed by `NewForConfig`, `none` when one
of the two returns an error. -/
def KedaEnv.client (env : KedaEnv) : Option Clientset :=
  match env.GetK8sClient with
  | .error _ => none
  | .ok restConfig =>
    match env.NewForConfig restConfig with
    | .error _ => none
    | .ok c => some c

/-- The patch request of `PauseKeda` for a specification. -/
def pauseRequest (dev : Dev) : PatchRequest :=
  ⟨dev.Namespace, dev.Name, PatchType.MergePatchType, pausePayload⟩

/-- The patch request of `UnpauseKeda` for an application. -/
def unpauseRequest (app : App) : PatchRequest :=
  ⟨app.ObjectMeta.Namespace, app.ObjectMeta.Name, PatchType.MergePatchType, unpausePayload⟩

/-- The two ways a run over the request `req` can end, and what each failure leaves
behind. A run without a client issues no request, leaves the cluster as it was and reports
a failure and no success. A run whose request the cluster refuses leaves the cluster as it
was and reports a failure and no success. And every run ends either with the request
answered by the cluster, the cluster as the answer left it and success reported without a
failure, or with a failure reported without success. -/
def EndsInOneOutcome (env : KedaEnv) (objects : ScaledObjects) (req : PatchRequest)
    (r : KedaResult) : Prop :=
  (env.client = none →
    r.requests = [] ∧ r.objects = objects ∧ r.failed = true ∧ r.succeeded = false) ∧
  (∀ c e, env.client = some c → env.Patch c objects req = .error e →
    r.requests = [req] ∧ r.objects = objects ∧ r.failed = true ∧ r.succeeded = false) ∧
  ((r.succeeded = true ∧ r.failed = false ∧ r.requests = [req] ∧
      ∃ c, env.client = some c ∧ env.Patch c objects req = .ok r.objects) ∨
   (r.failed = true ∧ r.succeeded = false))

/-- An environment with a client and a cluster that applies merge patches. -/
def readyEnv : KedaEnv :=
  { GetK8sClient := .ok ⟨"https://cluster.local"⟩
    NewForConfig := fun c => .ok ⟨c⟩
    Patch := mergePatchCluster }

/-- An environment in which `GetK8sClient` returns an error. -/
def noContextEnv : KedaEnv :=
  { GetK8sClient := .error "no kubernetes context"
    NewForConfig := fun c => .ok ⟨c⟩
    Patch := mergePatchCluster }

/-- An environment in which `NewForConfig` returns an error. -/
def noClientsetEnv : KedaEnv :=
  { GetK8sClient := .ok ⟨"https://cluster.local"⟩
    NewForConfig := fun _ => .error "invalid configuration"
    Patch := mergePatchCluster }

/-- A cluster with the scaled object `mailer` in the namespace `dev`, which has one
annotation and no pause annotation. -/
def mailerCluster : ScaledObjects :=
  [(("dev", "mailer"),
    Json.obj [("metadata", Json.obj [("name", Json.str "mailer"),
        ("annotations", Json.obj [("team", Json.str "platform")])]),
      ("spec", Json.obj [("minReplicaCount", Json.num 1)])])]

/-- The specification of `mailer` in the namespace `dev`. -/
def mailerDev : Dev :=
  { generateGuestyDev "mailer" "worker" with Name := "mailer", Namespace := "dev" }

/-- The application `mailer` in the namespace `dev`. -/
def mailerApp : App :=
  ⟨⟨"mailer", "dev"⟩⟩

/-- The resource of a cluster under a namespace and a name. -/
def ScaledObjects.find (objects : ScaledObjects) (ns name : String) : Option Json :=
  objects.lookup (ns, name)

/-- An environment with a client and a cluster that refuses every patch request. -/
def refusingEnv : KedaEnv :=
  { GetK8sClient := .ok ⟨"https://cluster.local"⟩
    NewForConfig := fun c => .ok ⟨c⟩
    Patch := fun _ _ _ => .error "forbidden" }

/-- The client of `readyEnv` and of `refusingEnv`. -/
def localClient : Clientset :=
  ⟨⟨"https://cluster.local"⟩⟩

/-! ## Lemmas on the map -/

theorem get_set_self (devs : ManifestDevs) (k : String) (v : Dev) :
    (devs.set k v).get k = some v := by
  simp [ManifestDevs.set, ManifestDevs.get, List.lookup]

theorem lookup_filter_ne {β : Type} (l : List (String × β)) (k x : String) (h : x ≠ k) :
    (l.filter (fun e => e.1 != k)).lookup x = l.lookup x := by
  induction l with
  | nil => rfl
  | cons e l ih =>
    obtain ⟨a, b⟩ := e
    by_cases hak : a = k
    · subst hak
      have hxa : (x == a) = false := by simpa using h
      simp [List.filter, List.lookup, hxa, ih]
    · have : (a != k) = true := by simpa using hak
      simp only [List.filter, this, List.lookup]
      rw [ih]

theorem lookup_filter_self {β : Type} (l : List (String × β)) (k : String) :
    (l.filter (fun e => e.1 != k)).lookup k = none := by
  induction l with
  | nil => rfl
  | cons e l ih =>
    obtain ⟨a, b⟩ := e
    by_cases hak : a = k
    · subst hak
      simp [List.filter, ih]
    · have h1 : (a != k) = true := by simpa using hak
      have h2 : (k == a) = false := by simpa using fun h => hak h.symm
      simp only [List.filter, h1, List.lookup, h2]
      exact ih

theorem get_set_ne (devs : ManifestDevs) (k x : String) (v : Dev) (h : x ≠ k) :
    (devs.set k v).get x = devs.get x := by
  have hxk : (x == k) = false := by simpa using h
  simp only [ManifestDevs.set, ManifestDevs.get, List.lookup, hxk]
  exact lookup_filter_ne devs k x h

theorem mem_keys_set (devs : ManifestDevs) (k x : String) (v : Dev) :
    x ∈ (devs.set k v).keys ↔ x = k ∨ x ∈ devs.keys := by
  simp only [ManifestDevs.set, ManifestDevs.keys, List.map_cons, List.mem_cons, List.mem_map,
    List.mem_filter]
  constructor
  · rintro (h | ⟨e, ⟨he, _⟩, rfl⟩)
    · exact Or.inl h
    · exact Or.inr ⟨e, he, rfl⟩
  · rintro (h | ⟨e, he, rfl⟩)
    · exact Or.inl h
    · by_cases hk : e.1 = k
      · exact Or.inl hk
      · exact Or.inr ⟨e, ⟨he, by simpa using hk⟩, rfl⟩

theorem nodup_keys_set (devs : ManifestDevs) (k : String) (v : Dev) (h : devs.keys.Nodup) :
    (devs.set k v).keys.Nodup := by
  simp only [ManifestDevs.set, ManifestDevs.keys, List.map_cons, List.nodup_cons]
  refine ⟨?_, ?_⟩
  · simp [List.mem_map, List.mem_filter]
  · have hsub : List.Sublist ((devs.filter (fun e => e.1 != k)).map Prod.fst)
        (devs.map Prod.fst) := List.Sublist.map _ (List.filter_sublist _)
    exact List.Nodup.sublist hsub h

/-! ## Lemmas on the loops -/

theorem translateEntries_append (es fs : List (String × String)) (devs : ManifestDevs) :
    translateEntries (es ++ fs) devs = translateEntries fs (translateEntries es devs) := by
  simp [translateEntries, List.foldl_append]

theorem translateClass_eq (ws : List piWorkload) (label : String) (devs : ManifestDevs) :
    translateClass ws label devs =
      translateEntries (ws.map (fun w => (w.Identity, label))) devs := by
  simp [translateClass, translateEntries, List.foldl_map]

theorem translationLoops_eq (pi : piManifest) :
    translationLoops pi = translateEntries (inputOrder pi) [] := by
  simp [translationLoops, inputOrder, translateClass_eq, translateEntries_append]

theorem get_translateEntries_of_not_mem (es : List (String × String)) (devs : ManifestDevs)
    (k : String) (h : k ∉ es.map Prod.fst) :
    (translateEntries es devs).get k = devs.get k := by
  induction es generalizing devs with
  | nil => rfl
  | cons e es ih =>
    simp only [List.map_cons, List.mem_cons, not_or] at h
    have := ih (devs.set e.1 (generateGuestyDev e.1 e.2)) h.2
    simp only [translateEntries, List.foldl_cons] at this ⊢
    rw [this]
    exact get_set_ne devs e.1 k _ h.1

theorem get_translateEntries_last (pre post : List (String × String)) (k c : String)
    (devs : ManifestDevs) (h : k ∉ post.map Prod.fst) :
    (translateEntries (pre ++ (k, c) :: post) devs).get k = some (generateGuestyDev k c) := by
  rw [translateEntries_append]
  have : translateEntries ((k, c) :: post) (translateEntries pre devs) =
      translateEntries post ((translateEntries pre devs).set k (generateGuestyDev k c)) := by
    simp [translateEntries]
  rw [this, get_translateEntries_of_not_mem _ _ _ h]
  exact get_set_self _ _ _

theorem mem_keys_translateEntries (es : List (String × String)) (devs : ManifestDevs)
    (x : String) :
    x ∈ (translateEntries es devs).keys ↔ x ∈ es.map Prod.fst ∨ x ∈ devs.keys := by
  induction es generalizing devs with
  | nil => simp [translateEntries]
  | cons e es ih =>
    have := ih (devs.set e.1 (generateGuestyDev e.1 e.2))
    simp only [translateEntries, List.foldl_cons] at this ⊢
    rw [this, mem_keys_set]
    simp only [List.map_cons, List.mem_cons]
    tauto

theorem nodup_keys_translateEntries (es : List (String × String)) (devs : ManifestDevs)
    (h : devs.keys.Nodup) : (translateEntries es devs).keys.Nodup := by
  induction es generalizing devs with
  | nil => simpa [translateEntries] using h
  | cons e es ih =>
    have := ih (devs.set e.1 (generateGuestyDev e.1 e.2)) (nodup_keys_set devs _ _ h)
    simpa [translateEntries] using this

/-- An identity that occurs once in a list splits the list around its one occurrence. -/
theorem split_of_count_one (es : List (String × String)) (k c : String)
    (hmem : (k, c) ∈ es) (hcount : (es.map Prod.fst).count k = 1) :
    ∃ pre post, es = pre ++ (k, c) :: post ∧ k ∉ post.map Prod.fst := by
  obtain ⟨pre, post, rfl⟩ := List.append_of_mem hmem
  refine ⟨pre, post, rfl, ?_⟩
  intro hk
  have hpos : 0 < (post.map Prod.fst).count k := List.count_pos_iff.mpr hk
  simp only [List.map_append, List.map_cons, List.count_append, List.count_cons_self] at hcount
  omega

theorem holdsAs_of_once (pi : piManifest) (k c : String) (hmem : (k, c) ∈ inputOrder pi)
    (hcount : (identities pi).count k = 1) : HoldsAs (translationLoops pi) k c := by
  obtain ⟨pre, post, hsplit, hpost⟩ := split_of_count_one (inputOrder pi) k c hmem hcount
  refine ⟨generateGuestyDev k c, ?_, rfl, ?_⟩
  · rw [translationLoops_eq, hsplit]
    exact get_translateEntries_last pre post k c [] hpost
  · simp [generateGuestyDev, List.lookup]

/-! ## The inventory translator -/

/-- C1: for every inventory document and every entry of one of its four sequences whose
identity occurs once in the whole document, the map built by the translation loops holds
under that identity a specification whose container name is the identity and whose
placement selector `NodeSelector["WorkloadType"]` is the label of the entry's class:
`service`, `worker`, `kconsumer` or `scheduler`. -/
theorem unique_entry_is_stored_under_its_identity (pi : piManifest) (w : piWorkload)
    (hcount : (identities pi).count w.Identity = 1) :
    (w ∈ pi.Services → HoldsAs (translationLoops pi) w.Identity "service") ∧
    (w ∈ pi.Workers → HoldsAs (translationLoops pi) w.Identity "worker") ∧
    (w ∈ pi.KConsumers → HoldsAs (translationLoops pi) w.Identity "kconsumer") ∧
    (w ∈ pi.Schedulers → HoldsAs (translationLoops pi) w.Identity "scheduler") := by
  refine ⟨fun h => ?_, fun h => ?_, fun h => ?_, fun h => ?_⟩ <;>
    apply holdsAs_of_once pi _ _ _ hcount <;>
    simp only [inputOrder, List.mem_append, List.mem_map]
  · exact Or.inl (Or.inl (Or.inl ⟨w, h, rfl⟩))
  · exact Or.inl (Or.inl (Or.inr ⟨w, h, rfl⟩))
  · exact Or.inl (Or.inr ⟨w, h, rfl⟩)
  · exact Or.inr ⟨w, h, rfl⟩

/-- C1 at the document with the service `api` and the worker `mailer`. -/
theorem unique_entry_is_stored_witness :
    HoldsAs (translationLoops apiMailer) "api" "service" ∧
    HoldsAs (translationLoops apiMailer) "mailer" "worker" :=
  ⟨(unique_entry_is_stored_under_its_identity apiMailer ⟨"api"⟩ (by decide)).1 (by decide),
   (unique_entry_is_stored_under_its_identity apiMailer ⟨"mailer"⟩ (by decide)).2.1 (by decide)⟩

/-- C2: for every inventory document, the keys of the map produced by the translation
loops are exactly the identities of the four sequences, each key once, so the number of
keys is the number of distinct identities; and the specification stored under an identity
is the one generated for its last occurrence in input order (services, then workers, then
kConsumers, then schedulers), whose selector is the class label of that occurrence. -/
theorem keys_are_identities_last_occurrence_wins (pi : piManifest) :
    (∀ k, k ∈ (translationLoops pi).keys ↔ k ∈ identities pi) ∧
    (translationLoops pi).keys.Nodup ∧
    (translationLoops pi).keys.length = (identities pi).dedup.length ∧
    (∀ pre post k c, inputOrder pi = pre ++ (k, c) :: post → k ∉ post.map Prod.fst →
      (translationLoops pi).get k = some (generateGuestyDev k c) ∧
      (generateGuestyDev k c).NodeSelector.lookup "WorkloadType" = some c) := by
  have hmem : ∀ k, k ∈ (translationLoops pi).keys ↔ k ∈ identities pi := by
    intro k
    rw [translationLoops_eq, mem_keys_translateEntries]
    simp [identities, ManifestDevs.keys]
  have hnodup : (translationLoops pi).keys.Nodup := by
    rw [translationLoops_eq]
    exact nodup_keys_translateEntries _ _ (by simp [ManifestDevs.keys])
  refine ⟨hmem, hnodup, ?_, ?_⟩
  · apply List.Perm.length_eq
    rw [List.perm_ext_iff_of_nodup hnodup (List.nodup_dedup _)]
    intro k
    rw [hmem k, List.mem_dedup]
  · intro pre post k c hsplit hpost
    refine ⟨?_, ?_⟩
    · rw [translationLoops_eq, hsplit]
      exact get_translateEntries_last pre post k c [] hpost
    · simp [generateGuestyDev, List.lookup]

/-- C3: for every workload name and every two class labels, the two specifications that
`generateGuestyDev` builds agree on every field but the placement selector; and for every
name and class the specification has working directory `/appdev`, CPU limit `3`, memory
limit `4Gi`, the forwarded ports 9229 to 9229 and 3000 to 3000, the environment
`DEBUG_PORT=9229`, the one sync folder `.` to `/appdev` and the one secret `$HOME/.npmrc`
to `/root/.npmrc` with mode 644. -/
theorem template_is_shared_across_classes (n c1 c2 : String) :
    (∀ s, { generateGuestyDev n c1 with NodeSelector := s } =
      { generateGuestyDev n c2 with NodeSelector := s }) ∧
    (generateGuestyDev n c1).Workdir = "/appdev" ∧
    (generateGuestyDev n c1).Resources.Limits.lookup "cpu" = some (MustParse "3") ∧
    (generateGuestyDev n c1).Resources.Limits.lookup "memory" = some (MustParse "4Gi") ∧
    (generateGuestyDev n c1).Resources.Limits.map Prod.fst = ["cpu", "memory"] ∧
    (generateGuestyDev n c1).Forward = [⟨9229, 9229⟩, ⟨3000, 3000⟩] ∧
    (generateGuestyDev n c1).Environment = [⟨"DEBUG_PORT", "9229"⟩] ∧
    (generateGuestyDev n c1).Sync.Folders = [⟨".", "/appdev"⟩] ∧
    (generateGuestyDev n c1).Secrets = [⟨"$HOME/.npmrc", "/root/.npmrc", 644⟩] := by
  refine ⟨fun s => rfl, rfl, ?_, ?_, rfl, rfl, rfl, rfl, rfl⟩
  · simp [generateGuestyDev, List.lookup]
  · simp [generateGuestyDev, List.lookup]

theorem run_without_failure (env : InitEnv) (opts : InitOpts) (data devDir : String)
    (hread : env.ReadFile (inventoryPath (env.Base opts.Workdir)) = .ok data)
    (hwrite : ∀ m, env.WriteToFile m opts.DevPath = none)
    (habs : env.AbsDir opts.DevPath = .ok devDir) :
    (RunGuestyInitV1 env opts).err = none ∧
    (RunGuestyInitV1 env opts).written =
      [{ Deploy := none, Dev := translationLoops (env.Unmarshal data ⟨[], [], [], []⟩).1 }] := by
  constructor
  · simp only [RunGuestyInitV1, hread, hwrite, finishGuestyInit, habs]
  · simp only [RunGuestyInitV1, hread, hwrite, finishGuestyInit, habs, InitResult.written]
    split_ifs <;> (try split) <;> simp

/-- C4: for every inventory document whose four sequences are all empty, the map produced
by the translation loops is empty; and this is not an error: a run of `RunGuestyInitV1`
that decodes such a document, and in which reading, writing and `filepath.Abs` succeed,
writes the manifest with the empty `dev` section and returns `nil`. -/
theorem empty_inventory_gives_empty_map (pi : piManifest)
    (hs : pi.Services = []) (hw : pi.Workers = []) (hk : pi.KConsumers = [])
    (hc : pi.Schedulers = []) :
    translationLoops pi = [] ∧
    ∀ (env : InitEnv) (opts : InitOpts) (data devDir : String),
      env.ReadFile (inventoryPath (env.Base opts.Workdir)) = .ok data →
      (env.Unmarshal data ⟨[], [], [], []⟩).1 = pi →
      (∀ m, env.WriteToFile m opts.DevPath = none) →
      env.AbsDir opts.DevPath = .ok devDir →
      (RunGuestyInitV1 env opts).err = none ∧
      (RunGuestyInitV1 env opts).written = [{ Deploy := none, Dev := [] }] := by
  have hempty : translationLoops pi = [] := by
    simp [translationLoops, translateClass, hs, hw, hk, hc]
  refine ⟨hempty, ?_⟩
  intro env opts data devDir hread hdec hwrite habs
  have := run_without_failure env opts data devDir hread hwrite habs
  rw [hdec, hempty] at this
  exact this

/-- C4 at the document without entries, read by a run in which every call succeeds. -/
theorem empty_inventory_witness :
    translationLoops emptyInventory = [] ∧
    (RunGuestyInitV1 (quietEnv "\x7b\x7d" emptyInventory none) bookingOpts).err = none ∧
    (RunGuestyInitV1 (quietEnv "\x7b\x7d" emptyInventory none) bookingOpts).written =
      [{ Deploy := none, Dev := [] }] :=
  ⟨(empty_inventory_gives_empty_map emptyInventory rfl rfl rfl rfl).1,
   (empty_inventory_gives_empty_map emptyInventory rfl rfl rfl rfl).2
     (quietEnv "\x7b\x7d" emptyInventory none) bookingOpts "\x7b\x7d" "okteto.yml"
     rfl rfl (fun _ => rfl) rfl⟩

/-- An identity of a list of entries has a last occurrence in it. -/
theorem split_at_last (es : List (String × String)) (k : String) (h : k ∈ es.map Prod.fst) :
    ∃ pre c post, es = pre ++ (k, c) :: post ∧ k ∉ post.map Prod.fst := by
  induction es with
  | nil => simp at h
  | cons e es ih =>
    by_cases hk : k ∈ es.map Prod.fst
    · obtain ⟨pre, c, post, hsplit, hpost⟩ := ih hk
      exact ⟨e :: pre, c, post, by rw [hsplit]; rfl, hpost⟩
    · have he : k = e.1 := by
        simp only [List.map_cons, List.mem_cons] at h
        exact h.resolve_right hk
      refine ⟨[], e.2, es, ?_, hk⟩
      subst he
      rfl

theorem label_of_mem_inputOrder (pi : piManifest) (k c : String) (h : (k, c) ∈ inputOrder pi) :
    c ∈ ["service", "worker", "kconsumer", "scheduler"] := by
  simp only [inputOrder, List.mem_append, List.mem_map, Prod.mk.injEq] at h
  rcases h with ((⟨_, _, _, rfl⟩ | ⟨_, _, _, rfl⟩) | ⟨_, _, _, rfl⟩) | ⟨_, _, _, rfl⟩ <;> simp

/-- C10, what the code does instead: an entry whose identity is the empty string is
translated like any other. For every inventory document with such an entry, the map holds
under the empty key the specification generated for the empty name and the class label of
the last such entry in input order, and a run of `RunGuestyInitV1` that decodes the
document, and in which reading, writing and `filepath.Abs` succeed, writes the manifest
with that map and returns `nil`. -/
theorem empty_identity_is_translated (pi : piManifest) (h : "" ∈ identities pi) :
    (∃ pre c post, inputOrder pi = pre ++ ("", c) :: post ∧ "" ∉ post.map Prod.fst ∧
      c ∈ ["service", "worker", "kconsumer", "scheduler"] ∧
      (translationLoops pi).get "" = some (generateGuestyDev "" c)) ∧
    ∀ (env : InitEnv) (opts : InitOpts) (data devDir : String),
      env.ReadFile (inventoryPath (env.Base opts.Workdir)) = .ok data →
      (env.Unmarshal data ⟨[], [], [], []⟩).1 = pi →
      (∀ m, env.WriteToFile m opts.DevPath = none) →
      env.AbsDir opts.DevPath = .ok devDir →
      (RunGuestyInitV1 env opts).err = none ∧
      (RunGuestyInitV1 env opts).written = [{ Deploy := none, Dev := translationLoops pi }] := by
  constructor
  · obtain ⟨pre, c, post, hsplit, hpost⟩ := split_at_last (inputOrder pi) "" h
    refine ⟨pre, c, post, hsplit, hpost,
      label_of_mem_inputOrder pi "" c (by rw [hsplit]; simp), ?_⟩
    rw [translationLoops_eq, hsplit]
    exact get_translateEntries_last pre post "" c [] hpost
  · intro env opts data devDir hread hdec hwrite habs
    have := run_without_failure env opts data devDir hread hwrite habs
    rw [hdec] at this
    exact this

/-- C10 amended, at the document whose one entry is a service with the empty identity,
read by a run in which every call succeeds. -/
theorem empty_identity_is_translated_witness :
    (∃ pre c post, inputOrder namelessService = pre ++ ("", c) :: post ∧
      "" ∉ post.map Prod.fst ∧ c ∈ ["service", "worker", "kconsumer", "scheduler"] ∧
      (translationLoops namelessService).get "" = some (generateGuestyDev "" c)) ∧
    (RunGuestyInitV1 (quietEnv namelessInventory namelessService none) bookingOpts).err = none ∧
    (RunGuestyInitV1 (quietEnv namelessInventory namelessService none) bookingOpts).written =
      [{ Deploy := none, Dev := translationLoops namelessService }] :=
  ⟨(empty_identity_is_translated namelessService (by decide)).1,
   (empty_identity_is_translated namelessService (by decide)).2
     (quietEnv namelessInventory namelessService none) bookingOpts namelessInventory "okteto.yml"
     rfl rfl (fun _ => rfl) rfl⟩

/-- C10 as stated fails: the document whose one entry is a service with the empty identity
gives a map that holds a specification under the empty key, and the run over it returns
`nil`. -/
theorem empty_identity_not_rejected :
    "" ∈ identities namelessService ∧
    (translationLoops namelessService).get "" = some (generateGuestyDev "" "service") ∧
    (translationLoops namelessService).get "" ≠ none ∧
    (RunGuestyInitV1 (quietEnv namelessInventory namelessService none) bookingOpts).err = none := by
  decide

/-! ## Reading the inventory -/

/-- The part of C5 that holds: when the inventory file cannot be read, `RunGuestyInitV1`
returns the error of `os.ReadFile` and hands no manifest to `WriteToFile`. -/
theorem unreadable_inventory_is_an_error (env : InitEnv) (opts : InitOpts) (e : Error)
    (hread : env.ReadFile (inventoryPath (env.Base opts.Workdir)) = .error e) :
    (RunGuestyInitV1 env opts).err = some e ∧ (RunGuestyInitV1 env opts).written = [] := by
  simp [RunGuestyInitV1, hread, InitResult.written]

/-- The error of `json.Unmarshal` never reaches the caller: whatever the call returns, a
run in which reading, writing and `filepath.Abs` succeed returns `nil` and writes the
manifest translated from what the call left in the document. -/
theorem unmarshal_error_is_not_returned (env : InitEnv) (opts : InitOpts) (data devDir : String)
    (e : Error)
    (hread : env.ReadFile (inventoryPath (env.Base opts.Workdir)) = .ok data)
    (_hdec : (env.Unmarshal data ⟨[], [], [], []⟩).2 = some e)
    (hwrite : ∀ m, env.WriteToFile m opts.DevPath = none)
    (habs : env.AbsDir opts.DevPath = .ok devDir) :
    (RunGuestyInitV1 env opts).err = none ∧
    (RunGuestyInitV1 env opts).written =
      [{ Deploy := none, Dev := translationLoops (env.Unmarshal data ⟨[], [], [], []⟩).1 }] :=
  run_without_failure env opts data devDir hread hwrite habs

/-- C5 at an inventory file whose `workers` member is a number: `json.Unmarshal` returns an
error after decoding the service `api`, and the run returns `nil` and writes a manifest
whose `dev` section holds `api`. -/
theorem mistyped_inventory_is_translated :
    (mistypedEnv.Unmarshal mistypedInventory ⟨[], [], [], []⟩).2 ≠ none ∧
    (RunGuestyInitV1 mistypedEnv bookingOpts).err = none ∧
    (RunGuestyInitV1 mistypedEnv bookingOpts).written =
      [{ Deploy := none, Dev := [("api", generateGuestyDev "api" "service")] }] := by
  decide

/-! ## Lemmas on JSON merge patch -/

namespace Json

theorem lookup_dropMember_ne (ms : List (String × Json)) (k x : String) (h : x ≠ k) :
    (dropMember ms k).lookup x = ms.lookup x :=
  lookup_filter_ne ms k x h

theorem lookup_dropMember_self (ms : List (String × Json)) (k : String) :
    (dropMember ms k).lookup k = none :=
  lookup_filter_self ms k

theorem dropMember_dropMember (ms : List (String × Json)) (k : String) :
    dropMember (dropMember ms k) k = dropMember ms k := by
  simp [dropMember, List.filter_filter]

theorem dropMember_cons_self (ms : List (String × Json)) (k : String) (v : Json) :
    dropMember ((k, v) :: ms) k = dropMember ms k := by
  simp [dropMember, List.filter]

theorem mergePatch_single_null (t : Json) (k : String) :
    mergePatch t (obj [(k, null)]) = obj (dropMember (membersOf t) k) := by
  simp [mergePatch, mergeMembers]

theorem mergePatch_single (t : Json) (k : String) (v : Json) (hv : v ≠ null) :
    mergePatch t (obj [(k, v)]) =
      obj ((k, mergePatch ((t.get k).getD null) v) :: dropMember (membersOf t) k) := by
  cases v <;> first | exact absurd rfl hv | simp [mergePatch, mergeMembers, get]

theorem nest_ne_null_of_ne_nil (ks : List String) (leaf : Json) (h : ks ≠ []) :
    nest ks leaf ≠ null := by
  cases ks with
  | nil => exact absurd rfl h
  | cons k ks => simp [nest]

/-- A member other than the one a single-member patch names is as it was. -/
theorem get_mergePatch_single_ne (t : Json) (k x : String) (v : Json) (h : x ≠ k) :
    (mergePatch t (obj [(k, v)])).get x = t.get x := by
  have hxk : (x == k) = false := by simpa using h
  by_cases hv : v = null
  · subst hv
    rw [mergePatch_single_null]
    exact lookup_dropMember_ne _ _ _ h
  · rw [mergePatch_single t k v hv]
    simp only [get, membersOf, List.lookup, hxk]
    exact lookup_dropMember_ne _ _ _ h

theorem getPath_cons (j : Json) (k : String) (ks : List String) :
    j.getPath (k :: ks) = (j.get k).bind (fun v => v.getPath ks) := by
  cases h : j.get k <;> simp [getPath, h]

theorem getPath_getD_null (o : Option Json) (p : List String) (hp : p ≠ []) :
    (o.getD null).getPath p = o.bind (fun v => v.getPath p) := by
  cases o with
  | some v => rfl
  | none =>
    cases p with
    | nil => exact absurd rfl hp
    | cons k ks => simp [getPath, get, membersOf]

/-- A merge patch with one leaf leaves the value at every path that is neither on the way
to the leaf nor below it as it was. -/
theorem getPath_mergePatch_nest (kp : List String) (leaf : Json) (t : Json) (p : List String)
    (h1 : ¬ p <+: kp) (h2 : ¬ kp <+: p) :
    (mergePatch t (nest kp leaf)).getPath p = t.getPath p := by
  induction kp generalizing t p with
  | nil => exact absurd List.nil_prefix h2
  | cons k ks ih =>
    cases p with
    | nil => exact absurd List.nil_prefix h1
    | cons x p =>
      by_cases hx : x = k
      · subst hx
        have h1p : ¬ p <+: ks := fun h => h1 ((List.prefix_cons_inj x).mpr h)
        have h2p : ¬ ks <+: p := fun h => h2 ((List.prefix_cons_inj x).mpr h)
        have hks : ks ≠ [] := by
          rintro rfl
          exact h2p List.nil_prefix
        have hp : p ≠ [] := by
          rintro rfl
          exact h1p List.nil_prefix
        rw [getPath_cons, getPath_cons]
        simp only [nest]
        rw [mergePatch_single t x _ (nest_ne_null_of_ne_nil ks leaf hks)]
        have hxx : (x == x) = true := by simp
        simp only [get, membersOf, List.lookup, hxx, Option.some_bind]
        rw [ih _ p h1p h2p, getPath_getD_null _ p hp]
      · rw [getPath_cons, getPath_cons]
        simp only [nest]
        rw [get_mergePatch_single_ne t k x _ hx]

/-- After a merge patch whose one leaf is a string, the leaf's path holds that string. -/
theorem getPath_mergePatch_nest_str (kp : List String) (s : String) (t : Json) :
    (mergePatch t (nest kp (str s))).getPath kp = some (str s) := by
  induction kp generalizing t with
  | nil => simp [nest, mergePatch, getPath]
  | cons k ks ih =>
    have hv : nest ks (str s) ≠ null := by
      cases ks <;> simp [nest]
    rw [getPath_cons]
    simp only [nest]
    rw [mergePatch_single t k _ hv]
    have hkk : (k == k) = true := by simp
    simp only [get, membersOf, List.lookup, hkk, Option.some_bind]
    exact ih _

/-- After a merge patch whose one leaf is `null`, the leaf's path holds nothing. -/
theorem getPath_mergePatch_nest_null (kp : List String) (hkp : kp ≠ []) (t : Json) :
    (mergePatch t (nest kp null)).getPath kp = none := by
  induction kp generalizing t with
  | nil => exact absurd rfl hkp
  | cons k ks ih =>
    rw [getPath_cons]
    cases ks with
    | nil =>
      simp only [nest]
      rw [mergePatch_single_null]
      simp only [get, membersOf]
      rw [lookup_dropMember_self]
      rfl
    | cons k2 ks =>
      have hv : nest (k2 :: ks) null ≠ null := by simp [nest]
      simp only [nest] at hv ⊢
      rw [mergePatch_single t k _ hv]
      have hkk : (k == k) = true := by simp
      simp only [get, membersOf, List.lookup, hkk, Option.some_bind]
      exact ih (by simp) _

/-- Applying a merge patch with one leaf, a string or `null`, twice is applying it once. -/
theorem mergePatch_nest_idem (kp : List String) (leaf : Json)
    (hleaf : leaf = null ∨ ∃ s, leaf = str s) (t : Json) :
    mergePatch (mergePatch t (nest kp leaf)) (nest kp leaf) = mergePatch t (nest kp leaf) := by
  induction kp generalizing t with
  | nil =>
    rcases hleaf with rfl | ⟨s, rfl⟩ <;> simp [nest, mergePatch]
  | cons k ks ih =>
    simp only [nest]
    by_cases hv : nest ks leaf = null
    · rw [hv, mergePatch_single_null, mergePatch_single_null]
      simp only [membersOf]
      rw [dropMember_dropMember]
    · rw [mergePatch_single t k _ hv, mergePatch_single _ k _ hv]
      have hkk : (k == k) = true := by simp
      simp only [get, membersOf, List.lookup, hkk, Option.getD_some]
      rw [ih, dropMember_cons_self, dropMember_dropMember]

end Json

/-! ## Lemmas on the runs of the gate -/

theorem parse_pausePayload :
    Json.parse pausePayload = some (Json.nest pausedReplicasPath (Json.str "0")) := rfl

theorem parse_unpausePayload :
    Json.parse unpausePayload = some (Json.nest pausedReplicasPath Json.null) := rfl

theorem client_some (env : KedaEnv) (c : Clientset) (h : env.client = some c) :
    ∃ cfg, env.GetK8sClient = .ok cfg ∧ env.NewForConfig cfg = .ok c := by
  unfold KedaEnv.client at h
  cases hg : env.GetK8sClient with
  | error e => simp [hg] at h
  | ok cfg =>
    cases hn : env.NewForConfig cfg with
    | error e => simp [hg, hn] at h
    | ok c2 =>
      simp [hg, hn] at h
      exact ⟨cfg, rfl, by rw [hn, h]⟩

theorem pause_without_client (env : KedaEnv) (objects : ScaledObjects) (dev : Dev)
    (h : env.client = none) :
    ∃ msg, PauseKeda env objects dev = ⟨[KedaEvent.Fail msg], objects⟩ := by
  unfold KedaEnv.client at h
  cases hg : env.GetK8sClient with
  | error e =>
    exact ⟨"Keda pause client failed for " ++ dev.Name ++ ", err: " ++ e,
      by simp [PauseKeda, hg, oktetoLog.Fail]⟩
  | ok cfg =>
    cases hn : env.NewForConfig cfg with
    | error e =>
      exact ⟨"Keda pause client failed for " ++ dev.Name ++ ", err: " ++ e,
        by simp [PauseKeda, hg, hn, oktetoLog.Fail]⟩
    | ok c2 => simp [hg, hn] at h

theorem pause_refused (env : KedaEnv) (objects : ScaledObjects) (dev : Dev) (c : Clientset)
    (e : Error) (h : env.client = some c)
    (hp : env.Patch c objects (pauseRequest dev) = .error e) :
    ∃ msg, PauseKeda env objects dev =
      ⟨[KedaEvent.Patch (pauseRequest dev), KedaEvent.Fail msg], objects⟩ := by
  obtain ⟨cfg, hg, hn⟩ := client_some env c h
  simp only [pauseRequest] at hp
  exact ⟨"Keda pause failed for " ++ dev.Name ++ ", err: " ++ e,
    by simp [PauseKeda, hg, hn, hp, oktetoLog.Fail, pauseRequest]⟩

theorem pause_applied (env : KedaEnv) (objects after : ScaledObjects) (dev : Dev)
    (c : Clientset) (h : env.client = some c)
    (hp : env.Patch c objects (pauseRequest dev) = .ok after) :
    PauseKeda env objects dev =
      ⟨[KedaEvent.Patch (pauseRequest dev), KedaEvent.Success ("Keda paused " ++ dev.Name)],
        after⟩ := by
  obtain ⟨cfg, hg, hn⟩ := client_some env c h
  simp only [pauseRequest] at hp
  simp [PauseKeda, hg, hn, hp, pauseRequest]

theorem unpause_without_client (env : KedaEnv) (objects : ScaledObjects) (app : App)
    (h : env.client = none) :
    ∃ msg, UnpauseKeda env objects app = ⟨[KedaEvent.Fail msg], objects⟩ := by
  unfold KedaEnv.client at h
  cases hg : env.GetK8sClient with
  | error e =>
    exact ⟨"Keda unpause client failed for " ++ app.ObjectMeta.Name ++ ", err: " ++ e,
      by simp [UnpauseKeda, hg, oktetoLog.Fail]⟩
  | ok cfg =>
    cases hn : env.NewForConfig cfg with
    | error e =>
      exact ⟨"Keda unpause client failed for " ++ app.ObjectMeta.Name ++ ", err: " ++ e,
        by simp [UnpauseKeda, hg, hn, oktetoLog.Fail]⟩
    | ok c2 => simp [hg, hn] at h

theorem unpause_refused (env : KedaEnv) (objects : ScaledObjects) (app : App) (c : Clientset)
    (e : Error) (h : env.client = some c)
    (hp : env.Patch c objects (unpauseRequest app) = .error e) :
    ∃ msg, UnpauseKeda env objects app =
      ⟨[KedaEvent.Patch (unpauseRequest app), KedaEvent.Fail msg], objects⟩ := by
  obtain ⟨cfg, hg, hn⟩ := client_some env c h
  simp only [unpauseRequest] at hp
  exact ⟨"Keda unpause failed for " ++ app.ObjectMeta.Name ++ ", err: " ++ e,
    by simp [UnpauseKeda, hg, hn, hp, oktetoLog.Fail, unpauseRequest]⟩

theorem unpause_applied (env : KedaEnv) (objects after : ScaledObjects) (app : App)
    (c : Clientset) (h : env.client = some c)
    (hp : env.Patch c objects (unpauseRequest app) = .ok after) :
    UnpauseKeda env objects app =
      ⟨[KedaEvent.Patch (unpauseRequest app),
        KedaEvent.Success ("Keda unpaused " ++ app.ObjectMeta.Name)], after⟩ := by
  obtain ⟨cfg, hg, hn⟩ := client_some env c h
  simp only [unpauseRequest] at hp
  simp [UnpauseKeda, hg, hn, hp, unpauseRequest]

/-- A run that ends in one of the three shapes above ends in one outcome. -/
theorem endsInOneOutcome_of_shapes (env : KedaEnv) (objects : ScaledObjects)
    (req : PatchRequest) (r : KedaResult) (okMsg : String)
    (h0 : env.client = none → ∃ msg, r = ⟨[KedaEvent.Fail msg], objects⟩)
    (h1 : ∀ c e, env.client = some c → env.Patch c objects req = .error e →
      ∃ msg, r = ⟨[KedaEvent.Patch req, KedaEvent.Fail msg], objects⟩)
    (h2 : ∀ c after, env.client = some c → env.Patch c objects req = .ok after →
      r = ⟨[KedaEvent.Patch req, KedaEvent.Success okMsg], after⟩) :
    EndsInOneOutcome env objects req r := by
  refine ⟨?_, ?_, ?_⟩
  · intro h
    obtain ⟨msg, rfl⟩ := h0 h
    simp [KedaResult.requests, KedaResult.failed, KedaResult.succeeded]
  · intro c e hc hp
    obtain ⟨msg, rfl⟩ := h1 c e hc hp
    simp [KedaResult.requests, KedaResult.failed, KedaResult.succeeded]
  · cases hc : env.client with
    | none =>
      obtain ⟨msg, rfl⟩ := h0 hc
      exact Or.inr (by simp [KedaResult.failed, KedaResult.succeeded])
    | some c =>
      cases hp : env.Patch c objects req with
      | error e =>
        obtain ⟨msg, rfl⟩ := h1 c e hc hp
        exact Or.inr (by simp [KedaResult.failed, KedaResult.succeeded])
      | ok after =>
        have hr := h2 c after hc hp
        subst hr
        refine Or.inl ⟨?_, ?_, ?_, c, rfl, hp⟩ <;>
          simp [KedaResult.requests, KedaResult.failed, KedaResult.succeeded]

theorem toJson_get (a : Annotations) (k : String) :
    a.toJson.get k = (a.lookup k).map Json.str := by
  induction a with
  | nil => rfl
  | cons e a ih =>
    obtain ⟨x, v⟩ := e
    simp only [Annotations.toJson, Json.get, Json.membersOf, List.map_cons, List.lookup] at ih ⊢
    cases hkx : k == x
    · simpa using ih
    · rfl

theorem patchAnnotations_pause (j : Json) :
    patchAnnotations pausePayload j =
      Json.mergePatch j (Json.nest [pausedReplicas] (Json.str "0")) := by
  simp only [patchAnnotations, parse_pausePayload]
  rfl

theorem patchAnnotations_unpause (j : Json) :
    patchAnnotations unpausePayload j =
      Json.mergePatch j (Json.nest [pausedReplicas] Json.null) := by
  simp only [patchAnnotations, parse_unpausePayload]
  rfl

theorem getPath_single (j : Json) (k : String) : j.getPath [k] = j.get k := by
  rw [Json.getPath_cons]
  cases j.get k <;> rfl

theorem pause_requests (env : KedaEnv) (objects : ScaledObjects)
    (dev : Dev) (c : Clientset) (hclient : env.client = some c) :
    (PauseKeda env objects dev).requests = [pauseRequest dev] := by
  cases hp : env.Patch c objects (pauseRequest dev) with
  | error e =>
    obtain ⟨msg, hrun⟩ := pause_refused env objects dev c e hclient hp
    rw [hrun]
    rfl
  | ok after =>
    rw [pause_applied env objects after dev c hclient hp]
    rfl

theorem unpause_requests (env : KedaEnv) (objects : ScaledObjects)
    (app : App) (c : Clientset) (hclient : env.client = some c) :
    (UnpauseKeda env objects app).requests = [unpauseRequest app] := by
  cases hp : env.Patch c objects (unpauseRequest app) with
  | error e =>
    obtain ⟨msg, hrun⟩ := unpause_refused env objects app c e hclient hp
    rw [hrun]
    rfl
  | ok after =>
    rw [unpause_applied env objects after app c hclient hp]
    rfl

/-! ## The autoscale gate -/

/-- C6: for every workload reference (name, namespace), a run of `PauseKeda` that has its
cluster client issues exactly one patch request, of merge-patch type, against the scaled
object of that name in that namespace, and its document holds the single key
`metadata.annotations["autoscaling.keda.sh/paused-replicas"]` with the string `"0"`; a run
of `UnpauseKeda` issues exactly one merge patch against the same namespace and name, whose
document holds that same single key with `null`. Applied as a JSON merge patch to any
resource, each document leaves the value at every path other than the ones on the way to
that key or below it as it was: every other field and every other annotation. -/
theorem one_merge_patch_per_call (name ns : String) (env : KedaEnv) (objects : ScaledObjects)
    (dev : Dev) (app : App) (c : Clientset) (hclient : env.client = some c)
    (hdev : dev.Name = name ∧ dev.Namespace = ns)
    (happ : app.ObjectMeta.Name = name ∧ app.ObjectMeta.Namespace = ns) :
    (PauseKeda env objects dev).requests =
      [⟨ns, name, PatchType.MergePatchType, pausePayload⟩] ∧
    Json.parse pausePayload = some (Json.obj [("metadata", Json.obj [("annotations",
      Json.obj [("autoscaling.keda.sh/paused-replicas", Json.str "0")])])]) ∧
    (UnpauseKeda env objects app).requests =
      [⟨ns, name, PatchType.MergePatchType, unpausePayload⟩] ∧
    Json.parse unpausePayload = some (Json.obj [("metadata", Json.obj [("annotations",
      Json.obj [("autoscaling.keda.sh/paused-replicas", Json.null)])])]) ∧
    (∀ payload doc, payload = pausePayload ∨ payload = unpausePayload →
      Json.parse payload = some doc →
      ∀ (resource : Json) (p : List String),
        ¬ p <+: ["metadata", "annotations", "autoscaling.keda.sh/paused-replicas"] →
        ¬ ["metadata", "annotations", "autoscaling.keda.sh/paused-replicas"] <+: p →
        (Json.mergePatch resource doc).getPath p = resource.getPath p) := by
  refine ⟨?_, rfl, ?_, rfl, ?_⟩
  · rw [pause_requests env objects dev c hclient, pauseRequest, hdev.1, hdev.2]
  · rw [unpause_requests env objects app c hclient, unpauseRequest, happ.1, happ.2]
  · intro payload doc hpay hdoc resource p h1 h2
    rcases hpay with rfl | rfl
    · rw [parse_pausePayload] at hdoc
      cases hdoc
      exact Json.getPath_mergePatch_nest pausedReplicasPath _ resource p h1 h2
    · rw [parse_unpausePayload] at hdoc
      cases hdoc
      exact Json.getPath_mergePatch_nest pausedReplicasPath _ resource p h1 h2

/-- C6 at the scaled object `mailer` of the namespace `dev`: the one request of each run. -/
theorem one_merge_patch_witness :
    (PauseKeda readyEnv mailerCluster mailerDev).requests =
      [⟨"dev", "mailer", PatchType.MergePatchType, pausePayload⟩] ∧
    (UnpauseKeda readyEnv mailerCluster mailerApp).requests =
      [⟨"dev", "mailer", PatchType.MergePatchType, unpausePayload⟩] :=
  ⟨(one_merge_patch_per_call "mailer" "dev" readyEnv mailerCluster mailerDev mailerApp
      localClient rfl ⟨rfl, rfl⟩ ⟨rfl, rfl⟩).1,
   (one_merge_patch_per_call "mailer" "dev" readyEnv mailerCluster mailerDev mailerApp
      localClient rfl ⟨rfl, rfl⟩ ⟨rfl, rfl⟩).2.2.1⟩

/-- C7: with the annotations of a resource as a map from names to strings and the two
payloads as JSON merge patches on it, for every initial map: pause followed by unpause
leaves the key `autoscaling.keda.sh/paused-replicas` absent and every other key as it was;
pause applied twice gives the same map as pause applied once, in which the key holds
`"0"`; and unpause applied twice gives the same map as unpause applied once. -/
theorem pause_unpause_on_annotations (a : Annotations) :
    (patchAnnotations unpausePayload (patchAnnotations pausePayload a.toJson)).get
      "autoscaling.keda.sh/paused-replicas" = none ∧
    (∀ k, k ≠ "autoscaling.keda.sh/paused-replicas" →
      (patchAnnotations unpausePayload (patchAnnotations pausePayload a.toJson)).get k =
        (a.lookup k).map Json.str) ∧
    patchAnnotations pausePayload (patchAnnotations pausePayload a.toJson) =
      patchAnnotations pausePayload a.toJson ∧
    (patchAnnotations pausePayload a.toJson).get "autoscaling.keda.sh/paused-replicas" =
      some (Json.str "0") ∧
    patchAnnotations unpausePayload (patchAnnotations unpausePayload a.toJson) =
      patchAnnotations unpausePayload a.toJson := by
  simp only [patchAnnotations_pause, patchAnnotations_unpause]
  refine ⟨?_, ?_, ?_, ?_, ?_⟩
  · rw [← getPath_single]
    exact Json.getPath_mergePatch_nest_null [pausedReplicas] (by simp) _
  · intro k hk
    have hk2 : k ≠ pausedReplicas := hk
    simp only [Json.nest]
    rw [Json.get_mergePatch_single_ne _ _ _ _ hk2, Json.get_mergePatch_single_ne _ _ _ _ hk2,
      toJson_get]
  · exact Json.mergePatch_nest_idem [pausedReplicas] _ (Or.inr ⟨"0", rfl⟩) _
  · rw [← getPath_single]
    exact Json.getPath_mergePatch_nest_str [pausedReplicas] "0" _
  · exact Json.mergePatch_nest_idem [pausedReplicas] _ (Or.inl rfl) _

/-- C7 on a cluster: `PauseKeda` on the scaled object `mailer`, which has no pause
annotation, succeeds and leaves the annotation with the value `"0"`; `UnpauseKeda` after it
succeeds and leaves the annotation absent; the other annotation is as it was. -/
theorem pause_then_unpause_on_mailer :
    (PauseKeda readyEnv mailerCluster mailerDev).succeeded = true ∧
    (((PauseKeda readyEnv mailerCluster mailerDev).objects.find "dev" "mailer").bind
      (fun r => r.getPath pausedReplicasPath)) = some (Json.str "0") ∧
    (UnpauseKeda readyEnv (PauseKeda readyEnv mailerCluster mailerDev).objects
      mailerApp).succeeded = true ∧
    (((UnpauseKeda readyEnv (PauseKeda readyEnv mailerCluster mailerDev).objects
      mailerApp).objects.find "dev" "mailer").bind
      (fun r => r.getPath pausedReplicasPath)) = none ∧
    (((UnpauseKeda readyEnv (PauseKeda readyEnv mailerCluster mailerDev).objects
      mailerApp).objects.find "dev" "mailer").bind
      (fun r => r.getPath ["metadata", "annotations", "team"])) =
      some (Json.str "platform") :=
  ⟨rfl, rfl, rfl, rfl, rfl⟩

/-- C8: for every run of `PauseKeda` and of `UnpauseKeda`: when the cluster client cannot
be obtained (`GetK8sClient` or `NewForConfig` fails), the run reports the failure and ends
without a patch request, the cluster as it was; when the patch call fails, the run reports
the failure and no success; and every run ends in one of two outcomes, the patch applied
and success reported, or a failure reported, never both. -/
theorem pause_and_unpause_end_in_one_outcome (env : KedaEnv) (objects : ScaledObjects)
    (dev : Dev) (app : App) :
    EndsInOneOutcome env objects (pauseRequest dev) (PauseKeda env objects dev) ∧
    EndsInOneOutcome env objects (unpauseRequest app) (UnpauseKeda env objects app) :=
  ⟨endsInOneOutcome_of_shapes env objects _ _ ("Keda paused " ++ dev.Name)
      (pause_without_client env objects dev)
      (fun c e => pause_refused env objects dev c e)
      (fun c after => pause_applied env objects after dev c),
   endsInOneOutcome_of_shapes env objects _ _ ("Keda unpaused " ++ app.ObjectMeta.Name)
      (unpause_without_client env objects app)
      (fun c e => unpause_refused env objects app c e)
      (fun c after => unpause_applied env objects after app c)⟩

/-- C8 at three runs of `PauseKeda` on `mailer`: without a context and without a clientset
the run issues no request, leaves the cluster as it was and reports a failure; with a
cluster that refuses the patch the run reports a failure and no success. -/
theorem failed_runs_witness :
    ((PauseKeda noContextEnv mailerCluster mailerDev).requests = [] ∧
      (PauseKeda noContextEnv mailerCluster mailerDev).objects = mailerCluster ∧
      (PauseKeda noContextEnv mailerCluster mailerDev).failed = true ∧
      (PauseKeda noContextEnv mailerCluster mailerDev).succeeded = false) ∧
    ((PauseKeda noClientsetEnv mailerCluster mailerDev).requests = [] ∧
      (PauseKeda noClientsetEnv mailerCluster mailerDev).objects = mailerCluster ∧
      (PauseKeda noClientsetEnv mailerCluster mailerDev).failed = true ∧
      (PauseKeda noClientsetEnv mailerCluster mailerDev).succeeded = false) ∧
    ((PauseKeda refusingEnv mailerCluster mailerDev).requests = [pauseRequest mailerDev] ∧
      (PauseKeda refusingEnv mailerCluster mailerDev).objects = mailerCluster ∧
      (PauseKeda refusingEnv mailerCluster mailerDev).failed = true ∧
      (PauseKeda refusingEnv mailerCluster mailerDev).succeeded = false) :=
  ⟨(pause_and_unpause_end_in_one_outcome noContextEnv mailerCluster mailerDev mailerApp).1.1 rfl,
   (pause_and_unpause_end_in_one_outcome noClientsetEnv mailerCluster mailerDev mailerApp).1.1 rfl,
   (pause_and_unpause_end_in_one_outcome refusingEnv mailerCluster mailerDev mailerApp).1.2.1
     localClient "forbidden" rfl rfl⟩

/-! ## The join between the two -/

/-- C9, what the code does instead: for every identity `x` and class, the specification
that `generateGuestyDev` builds carries `x` in its `Container` field, and for every
inventory document in which `x` occurs the map built by the translation loops holds under
the key `x` a specification with `Container` equal to `x`; the `Name` and `Namespace`
fields, the two that `PauseKeda` reads, are empty in it. So a run of `PauseKeda` that has
its client and is given the specification as generated issues its one patch request for
the name `""` in the namespace `""`; given the specification with `Name` set to `x` and
`Namespace` set to `ns`, its one patch request is for the name `x` in the namespace
`ns`. -/
theorem generated_name_is_empty (x cls ns : String) (pi : piManifest) (env : KedaEnv)
    (objects : ScaledObjects) (c : Clientset) (hclient : env.client = some c)
    (hx : x ∈ identities pi) :
    (generateGuestyDev x cls).Container = x ∧
    (generateGuestyDev x cls).Name = "" ∧
    (generateGuestyDev x cls).Namespace = "" ∧
    (∃ dev, (translationLoops pi).get x = some dev ∧ dev.Container = x ∧
      dev.Name = "" ∧ dev.Namespace = "") ∧
    (PauseKeda env objects (generateGuestyDev x cls)).requests =
      [⟨"", "", PatchType.MergePatchType, pausePayload⟩] ∧
    (PauseKeda env objects
      { generateGuestyDev x cls with Name := x, Namespace := ns }).requests =
      [⟨ns, x, PatchType.MergePatchType, pausePayload⟩] := by
  refine ⟨rfl, rfl, rfl, ?_, ?_, ?_⟩
  · obtain ⟨pre, k, post, hsplit, hpost⟩ := split_at_last (inputOrder pi) x hx
    refine ⟨generateGuestyDev x k, ?_, rfl, rfl, rfl⟩
    rw [translationLoops_eq, hsplit]
    exact get_translateEntries_last pre post x k [] hpost
  · rw [pause_requests env objects _ c hclient]
    rfl
  · rw [pause_requests env objects _ c hclient]
    rfl

/-- C9 amended, at the worker `mailer` of the document `apiMailer`, on a cluster whose
scaled object of that name is in the namespace `dev`. -/
theorem generated_name_is_empty_witness :
    (generateGuestyDev "mailer" "worker").Container = "mailer" ∧
    (generateGuestyDev "mailer" "worker").Name = "" ∧
    (generateGuestyDev "mailer" "worker").Namespace = "" ∧
    (∃ dev, (translationLoops apiMailer).get "mailer" = some dev ∧ dev.Container = "mailer" ∧
      dev.Name = "" ∧ dev.Namespace = "") ∧
    (PauseKeda readyEnv mailerCluster (generateGuestyDev "mailer" "worker")).requests =
      [⟨"", "", PatchType.MergePatchType, pausePayload⟩] ∧
    (PauseKeda readyEnv mailerCluster
      { generateGuestyDev "mailer" "worker" with Name := "mailer", Namespace := "dev" }).requests =
      [⟨"dev", "mailer", PatchType.MergePatchType, pausePayload⟩] :=
  generated_name_is_empty "mailer" "worker" "dev" apiMailer readyEnv mailerCluster localClient
    rfl (by decide)

/-- C9 as stated fails: the specification generated for the identity `api` has the name
`""`, and `PauseKeda` given that specification issues its patch request for the name `""`
and not for `api`. -/
theorem generated_name_is_not_the_identity :
    (generateGuestyDev "api" "service").Name ≠ "api" ∧
    (PauseKeda readyEnv mailerCluster (generateGuestyDev "api" "service")).requests.map
      PatchRequest.Name = [""] ∧
    (PauseKeda readyEnv mailerCluster (generateGuestyDev "api" "service")).requests.map
      PatchRequest.Name ≠ ["api"] := by
  decide

end Okteto
